import Mathlib

/-!
Verification of the access-code-lifecycle core of the DoxIn frontend.

The definitions below are a shallow embedding of the TypeScript source:
* `generateAccessCode`, the uniqueness retry loop and the batch-send-invitations
  handler come from `app/api/admin/access-requests/batch-send-invitations` (the
  file `src/unnamed/part_002`);
* the approve / reject / batch-approve handlers come from
  `app/api/admin/access-requests/[id]/approve/route.ts`,
  `.../[id]/reject/route.ts` and `.../batch-approve/route.ts`;
* the request-access handler comes from the POST route embedded in
  `src/lib/server/turnstile.ts`, with the rate limiter from the rate-limiting
  utilities (`src/unnamed/part_008`);
* `handleSignup` comes from `app/auth/signup/page.tsx`.

Database rows are modelled as lists of records; Prisma calls (`findFirst`,
`findUnique`, `findMany`, `create`, `update`, `updateMany`) become the
corresponding pure list operations.  Randomness (`crypto.randomBytes`) is an
oracle: a stream `cands : Nat → String` of candidate codes, consumed
sequentially.  The email collaborator is an oracle `emailOk : Nat → Bool`
giving the per-request outcome of `resend.emails.send`.  Authentication
guards (session / admin role) sit before all of the modelled logic and are
outside every claim, so the handlers are modelled after those guards.
Timestamps are milliseconds as `Nat` (`Date.now()`).
-/

namespace DoxIn

/-- Status column of the `accessRequest` table; the routes compare it against
the string literals "pending" / "approved" / "rejected". -/
inductive RequestStatus
  | pending
  | approved
  | rejected
deriving DecidableEq, Repr

/-- A row of the `accessRequest` table, with the fields the handlers read or
write.  Ids are opaque; we use `Nat`. -/
structure AccessRequest where
  id : Nat
  email : String
  name : String
  message : Option String
  status : RequestStatus
  reviewedAt : Option Nat
  reviewedBy : Option Nat
  rejectionReason : Option String
deriving DecidableEq, Repr

/-- A row of the `accessCode` table, with the fields written by the
batch-send-invitations handler (`prisma.accessCode.create`). -/
structure AccessCode where
  code : String
  isUsed : Bool
  usedByEmail : Option String
  usedAt : Option Nat
  expiresAt : Nat
  generatedBy : Nat
  generationType : String
  accessRequestId : Option Nat
deriving DecidableEq, Repr

/-- Database state: the two durable entities plus the `user` table
(only its emails matter to the modelled handlers). -/
structure DB where
  requests : List AccessRequest
  codes : List AccessCode
  users : List String
deriving DecidableEq, Repr

/-! ## Code generator (`generateAccessCode`, part_002 lines 24–34) -/

/-- The restricted alphabet
`"ABCDEFGHJKLMNPQRSTUVWXYZ23456789"` (no 0/O, 1/I/L). -/
def accessCodeChars : List Char := "ABCDEFGHJKLMNPQRSTUVWXYZ23456789".toList

/-- The function `generateAccessCode`: the TS function draws 12 random bytes and maps each
byte `b` to `chars[b % chars.length]`.  The random bytes are the explicit
argument here. -/
def generateAccessCode (randomBytes : List Nat) : String :=
  String.mk (randomBytes.map (fun b => accessCodeChars.getD (b % accessCodeChars.length) ' '))

/-! ## Uniqueness retry loop (part_002 lines 182–205)

```
let code; let isUnique = false; let attempts = 0;
while (!isUnique && attempts < 10) {
  code = generateAccessCode();
  const existing = await prisma.accessCode.findUnique({ where: { code } });
  if (!existing) { isUnique = true; }
  attempts++;
}
if (!isUnique) { errors.push(...); continue; }
```
Each iteration consumes one fresh candidate from the stream `cands` at the
current stream position `rng`.  `genLoopAux` recurses on the remaining fuel
`10 - attempts`, so `genLoopAux fuel rng attempts` is the loop state with
`fuel + attempts = 10`; it returns
(found code or none, next stream position, final attempts counter). -/

/-- The query on the code column (findUnique where code) viewed as a Boolean
collision check. -/
def accessCodeExists (codes : List AccessCode) (c : String) : Bool :=
  codes.any (fun k => k.code == c)

/-- The body of the while loop, structurally recursive on the remaining fuel. -/
def genLoopAux (codes : List AccessCode) (cands : Nat → String) :
    Nat → Nat → Nat → Option String × Nat × Nat
  | 0, rng, attempts => (none, rng, attempts)
  | fuel + 1, rng, attempts =>
    let code := cands rng
    if accessCodeExists codes code then
      genLoopAux codes cands fuel (rng + 1) (attempts + 1)
    else
      (some code, rng + 1, attempts + 1)

/-- The uniqueness retry loop: at most 10 attempts starting from stream
position `rng`. -/
def genUniqueLoop (codes : List AccessCode) (cands : Nat → String) (rng : Nat) :
    Option String × Nat × Nat :=
  genLoopAux codes cands 10 rng 0

/-! ## Batch send invitations (part_002 POST handler, lines 122–274) -/

/-- An entry of the `results` array pushed on success. -/
structure SendResult where
  requestId : Nat
  email : String
  name : String
  code : String
deriving DecidableEq, Repr

/-- An entry of the `errors` array (`{ requestId, email, error }`). -/
structure SendError where
  requestId : Nat
  email : String
  error : String
deriving DecidableEq, Repr

/-- Mutable state of the per-request loop: the `accessCode` table, the
position in the random-candidate stream, and the two accumulator arrays. -/
structure BatchState where
  codes : List AccessCode
  rng : Nat
  results : List SendResult
  errors : List SendError
deriving Repr

/-- One iteration of `for (const request of requests)`:
1. `findFirst({ where: { accessRequestId: request.id } })` — if a code is
   already linked, push an "Access code already generated" error and continue;
2. the uniqueness retry loop — on exhaustion push "Failed to generate unique
   code" and continue;
3. `prisma.accessCode.create` with `expiresAt = now + 24h`,
   `generationType: "user_request"`, linked to the request;
4. `resend.emails.send` — on success push a success result, on failure push
   an "Email sending failed" error (the created code row is not touched). -/
def processOne (cands : Nat → String) (emailOk : Nat → Bool) (adminId now : Nat)
    (st : BatchState) (r : AccessRequest) : BatchState :=
  match st.codes.find? (fun c => c.accessRequestId == some r.id) with
  | some _ =>
    { st with errors := st.errors ++ [⟨r.id, r.email, "Access code already generated"⟩] }
  | none =>
    match genUniqueLoop st.codes cands st.rng with
    | (none, rng2, _) =>
      { st with rng := rng2,
                errors := st.errors ++ [⟨r.id, r.email, "Failed to generate unique code"⟩] }
    | (some code, rng2, _) =>
      let newCode : AccessCode :=
        { code := code, isUsed := false, usedByEmail := none, usedAt := none,
          expiresAt := now + 24 * 60 * 60 * 1000,
          generatedBy := adminId, generationType := "user_request",
          accessRequestId := some r.id }
      if emailOk r.id then
        { codes := st.codes ++ [newCode], rng := rng2,
          results := st.results ++ [⟨r.id, r.email, r.name, code⟩],
          errors := st.errors }
      else
        { codes := st.codes ++ [newCode], rng := rng2,
          results := st.results,
          errors := st.errors ++ [⟨r.id, r.email, "Email sending failed"⟩] }

/-- Response of the batch-send-invitations handler (after the auth guards). -/
inductive BatchResponse
  /-- Status 400, "requestIds array is required". -/
  | badRequest
  /-- Status 404, "No approved requests found". -/
  | notFound
  /-- Status 200 with `results`, `errors` and
  `summary = { total, successful, failed }`. -/
  | ok (results : List SendResult) (errors : List SendError)
       (total successful failed : Nat)
deriving DecidableEq, Repr

/-- The POST handler body: fetch the requests among `requestIds` that are in
`approved` status (`findMany({ where: { id: { in: requestIds }, status:
"approved" } })`), 404 if none, then run the per-request loop and report
`summary = { total: requestIds.length, successful: results.length,
failed: errors.length }`.  Returns the response together with the final
`accessCode` table. -/
def batchSendInvitations (db : DB) (requestIds : List Nat)
    (cands : Nat → String) (emailOk : Nat → Bool) (adminId now : Nat) :
    BatchResponse × List AccessCode :=
  if requestIds.isEmpty then (.badRequest, db.codes)
  else
    let requests := db.requests.filter
      (fun r => requestIds.contains r.id && r.status == .approved)
    if requests.isEmpty then (.notFound, db.codes)
    else
      let final := requests.foldl (processOne cands emailOk adminId now)
        { codes := db.codes, rng := 0, results := [], errors := [] }
      (.ok final.results final.errors requestIds.length
        final.results.length final.errors.length,
       final.codes)

/-! ## Approve / reject / batch-approve handlers -/

/-- Response of the approve and reject handlers (after the auth guards). -/
inductive ReviewResult
  /-- Status 404, "Access request not found". -/
  | notFound
  /-- Status 400, "Access request already approved/rejected". -/
  | alreadyReviewed (status : RequestStatus)
  /-- Status 200 with the updated request. -/
  | updated (r : AccessRequest)
deriving DecidableEq, Repr

/-- The lookup by id (findUnique where id). -/
def findRequest (db : DB) (id : Nat) : Option AccessRequest :=
  db.requests.find? (fun r => r.id == id)

/-- The row update by id (update where id) as a map over the
table (the id column is unique, so at most one row changes). -/
def updateRequest (db : DB) (id : Nat) (f : AccessRequest → AccessRequest) : DB :=
  { db with requests := db.requests.map (fun q => if q.id == id then f q else q) }

/-- The approve handler: 404 if the id is unknown, 400 if the request is no
longer pending, otherwise set `status = approved`, `reviewedAt = now`,
`reviewedBy = session.user.id`. -/
def approvePOST (db : DB) (id : Nat) (reviewerId now : Nat) : ReviewResult × DB :=
  match findRequest db id with
  | none => (.notFound, db)
  | some r =>
    if r.status == .pending then
      let upd := fun q =>
        { q with status := .approved, reviewedAt := some now, reviewedBy := some reviewerId }
      (.updated (upd r), updateRequest db id upd)
    else
      (.alreadyReviewed r.status, db)

/-- The reject handler: same guards as approve; sets `status = rejected` plus
`rejectionReason` (the TS `reason || null` boundary is modelled by the
`Option String` argument). -/
def rejectPOST (db : DB) (id : Nat) (reviewerId : Nat) (reason : Option String)
    (now : Nat) : ReviewResult × DB :=
  match findRequest db id with
  | none => (.notFound, db)
  | some r =>
    if r.status == .pending then
      let upd := fun q =>
        { q with status := .rejected, reviewedAt := some now,
                 reviewedBy := some reviewerId, rejectionReason := reason }
      (.updated (upd r), updateRequest db id upd)
    else
      (.alreadyReviewed r.status, db)

/-- The batch-approve handler:
`updateMany({ where: { id: { in: requestIds }, status: "pending" }, data })`.
Returns `none` for the 400 empty-array guard, otherwise the affected-row
count. -/
def batchApprovePOST (db : DB) (requestIds : List Nat) (reviewerId now : Nat) :
    Option Nat × DB :=
  if requestIds.isEmpty then (none, db)
  else
    let hit := fun (q : AccessRequest) => requestIds.contains q.id && q.status == .pending
    let updated := db.requests.map (fun q =>
      if hit q then
        { q with status := .approved, reviewedAt := some now, reviewedBy := some reviewerId }
      else q)
    (some (db.requests.filter hit).length, { db with requests := updated })

/-- An admin mutation on the request table, for stating status monotonicity
over arbitrary operation sequences. -/
inductive AdminOp
  | approve (id reviewerId now : Nat)
  | reject (id reviewerId : Nat) (reason : Option String) (now : Nat)
  | batchApprove (requestIds : List Nat) (reviewerId now : Nat)

/-- The database effect of one admin operation. -/
def applyOp (db : DB) : AdminOp → DB
  | .approve id reviewerId now => (approvePOST db id reviewerId now).2
  | .reject id reviewerId reason now => (rejectPOST db id reviewerId reason now).2
  | .batchApprove ids reviewerId now => (batchApprovePOST db ids reviewerId now).2

/-! ## Request-access handler (turnstile.ts POST) and rate limiter (part_008) -/

/-- JS `String.prototype.toLowerCase`, modelled character by character (the
handler applies it to email addresses). -/
def toLowerCase (s : String) : String := String.mk (s.toList.map Char.toLower)

/-- The character class of the email regex: anything but whitespace and the at sign. -/
def isLocalChar (c : Char) : Bool := !(c == '@' || c.isWhitespace)

/-- The email regex test of the handler: the string is
`A ++ "@" ++ B ++ "." ++ C` with `A`, `B`, `C` nonempty and free of
whitespace and `@`.  Equivalently: the part before the first `@` is nonempty
and clean, an `@` exists, the part after it is clean and contains an interior
dot. -/
def emailRegexTest (s : String) : Bool :=
  let cs := s.toList
  let localPart := cs.takeWhile (fun c => !(c == '@'))
  match cs.dropWhile (fun c => !(c == '@')) with
  | [] => false
  | _ :: domain =>
    !localPart.isEmpty && localPart.all isLocalChar &&
      domain.all isLocalChar && ((domain.drop 1).dropLast.contains '.')

/-- The access-request limiter consumes from a budget of 3 points per
24 hours per email key (`getAccessRequestLimiter`). -/
def accessRequestPoints : Nat := 3

/-- The function `checkRateLimit` backed by consume(key, 1): allowed
while fewer than `points` points are consumed in the window, incrementing the
counter of the key; otherwise rejected.  The state maps each key to its consumed
points. -/
def checkRateLimit (points : Nat) (st : String → Nat) (key : String) :
    Bool × (String → Nat) :=
  if st key < points then
    (true, fun k => if k = key then st key + 1 else st k)
  else
    (false, st)

/-- Response of the request-access POST handler. -/
inductive ReqAccessResult
  /-- Status 400 with a field-validation or CAPTCHA-token message. -/
  | badRequest (msg : String)
  /-- Status 400, CAPTCHA verification failed. -/
  | captchaFailed
  /-- Status 429, too many requests. -/
  | rateLimited
  /-- Status 409, "You already have a pending access request". -/
  | duplicatePending
  /-- Status 409, "Account already exists". -/
  | accountExists
  /-- Status 201 with the created request id. -/
  | created
deriving DecidableEq, Repr

/-- Input body of the request-access POST. -/
structure ReqInput where
  email : String
  name : String
  message : Option String
  captchaToken : Option String
deriving DecidableEq, Repr

/-- The request-access POST handler, in source order: required fields, email
regex, name length, CAPTCHA token presence, CAPTCHA verification (a Boolean
collaborator, per the Turnstile service), rate limit (consuming one point for
the lowercased email), duplicate-pending check, account-exists check, then
`prisma.accessRequest.create` with the lowercased email and
`status: "pending"` (`newId` stands for the id Prisma generates).  Returns
(result, database, rate-limiter state). -/
def requestAccessPOST (db : DB) (rate : String → Nat) (input : ReqInput)
    (captchaSuccess : Bool) (newId : Nat) :
    ReqAccessResult × DB × (String → Nat) :=
  if input.email.isEmpty || input.name.isEmpty then
    (.badRequest "Email and name are required", db, rate)
  else if !emailRegexTest input.email then
    (.badRequest "Invalid email format", db, rate)
  else if input.name.length < 2 || input.name.length > 255 then
    (.badRequest "Name must be between 2 and 255 characters", db, rate)
  else if input.captchaToken.isNone then
    (.badRequest "CAPTCHA token is required", db, rate)
  else if !captchaSuccess then
    (.captchaFailed, db, rate)
  else
    let key := toLowerCase input.email
    match checkRateLimit accessRequestPoints rate key with
    | (false, rate2) => (.rateLimited, db, rate2)
    | (true, rate2) =>
      if db.requests.any (fun r => r.email == key && r.status == .pending) then
        (.duplicatePending, db, rate2)
      else if db.users.contains key then
        (.accountExists, db, rate2)
      else
        let newReq : AccessRequest :=
          { id := newId, email := key, name := input.name,
            message := input.message, status := .pending,
            reviewedAt := none, reviewedBy := none, rejectionReason := none }
        (.created, { db with requests := db.requests ++ [newReq] }, rate2)

/-! ## Signup page (`handleSignup`, app/auth/signup/page.tsx lines 81–139) -/

/-- The `codeValidationStatus` client state. -/
inductive CodeValidationStatus
  | idle
  | validating
  | valid
  | invalid
deriving DecidableEq, Repr

/-- What the user observes from `handleSignup` (the `toast` calls).
`incompleteRedemptionFailure` is the outcome the spec mandates for
an account-creation failure after the code was consumed — the spec names it
`PartialRedemptionFailure`; the handler never produces it. -/
inductive SignupToast
  /-- Toast "Please fill in all fields". -/
  | fillAllFields
  /-- Toast "Please provide a valid access code". -/
  | provideValidCode
  /-- Toast "Password must be at least 8 characters". -/
  | passwordTooShort
  /-- The use-access-code endpoint failed: `data.error` or
  "Failed to use access code". -/
  | useCodeError (msg : String)
  /-- Toast "Account created successfully!". -/
  | accountCreated
  /-- The catch-all: `error.message` or "Failed to create account". -/
  | genericSignupError (msg : String)
  /-- The outcome the spec names PartialRedemptionFailure (never produced). -/
  | incompleteRedemptionFailure
deriving DecidableEq, Repr

/-- The handler `handleSignup`: field checks, code-validation check, password length,
then (inside `try`) POST use-access-code — a non-ok response aborts with its
error — then `authClient.signUp.email`; an exception lands in the catch-all
toast.  The second component records whether the access code was consumed:
the use-access-code endpoint marks the code used exactly when it responds ok
(docs/ACCESS_CODE_SETUP.md: "POST /api/auth/use-access-code – Mark code as
used"), and nothing in the handler ever unmarks it. -/
def handleSignup (email password name accessCode : String)
    (codeValidationStatus : CodeValidationStatus)
    (useCode : Except String Unit) (signUp : Except String Unit) :
    SignupToast × Bool :=
  if email.isEmpty || password.isEmpty || name.isEmpty || accessCode.isEmpty then
    (.fillAllFields, false)
  else if !(codeValidationStatus == .valid) then
    (.provideValidCode, false)
  else if password.length < 8 then
    (.passwordTooShort, false)
  else
    match useCode with
    | .error msg => (.useCodeError msg, false)
    | .ok _ =>
      match signUp with
      | .ok _ => (.accountCreated, true)
      | .error msg => (.genericSignupError msg, true)

end DoxIn

namespace DoxIn

/-! ## Theorems -/

/-! ### Helper lemmas: the id column as a primary key -/

/-- In a table whose id column has no duplicates, rows are determined by
their id. -/
theorem id_inj_of_nodup {l : List AccessRequest}
    (hnd : (l.map AccessRequest.id).Nodup) :
    ∀ q ∈ l, ∀ r ∈ l, q.id = r.id → q = r :=
  List.inj_on_of_nodup_map hnd

/-- Looking up the id column returns the unique row carrying that id. -/
theorem find?_id_eq_some {l : List AccessRequest} {r : AccessRequest}
    (hmem : r ∈ l) (huni : ∀ q ∈ l, q.id = r.id → q = r) :
    l.find? (fun q => q.id == r.id) = some r := by
  induction l with
  | nil => cases hmem
  | cons q t ih =>
    by_cases hq : q.id = r.id
    · have hqr : q = r := huni q (List.mem_cons_self q t) hq
      subst hqr
      exact List.find?_cons_of_pos _ (by simp)
    · rw [List.find?_cons_of_neg _ (by simp [hq])]
      have hmt : r ∈ t := by
        rcases List.mem_cons.mp hmem with rfl | h
        · exact absurd rfl hq
        · exact h
      exact ih hmt (fun a ha => huni a (List.mem_cons_of_mem _ ha))

/-- A findMany whose filter can only match the id of a single present row
returns exactly that row. -/
theorem filter_eq_single {l : List AccessRequest} {r : AccessRequest}
    {p : AccessRequest → Bool}
    (hnd : (l.map AccessRequest.id).Nodup) (hmem : r ∈ l) (hp : p r = true)
    (honly : ∀ q ∈ l, p q = true → q.id = r.id) :
    l.filter p = [r] := by
  induction l with
  | nil => cases hmem
  | cons q t ih =>
    simp only [List.map_cons, List.nodup_cons, List.mem_map] at hnd
    rcases List.mem_cons.mp hmem with rfl | hrt
    · rw [List.filter_cons_of_pos hp]
      have : t.filter p = [] := by
        rw [List.filter_eq_nil_iff]
        intro a ha hpa
        exact hnd.1 ⟨a, ha, honly a (List.mem_cons_of_mem _ ha) hpa⟩
      rw [this]
    · have hq : ¬ p q = true := by
        intro hq2
        exact hnd.1 ⟨r, hrt, (honly q (List.mem_cons_self q t) hq2).symm⟩
      rw [List.filter_cons_of_neg hq]
      exact ih hnd.2 hrt (fun a ha => honly a (List.mem_cons_of_mem _ ha))

/-! ### Helper lemmas: the uniqueness retry loop -/

/-- If the first candidate is fresh, the loop returns it after one attempt. -/
theorem genLoopAux_first_fresh (codes : List AccessCode) (cands : Nat → String)
    (fuel rng attempts : Nat)
    (h : accessCodeExists codes (cands rng) = false) :
    genLoopAux codes cands (fuel + 1) rng attempts =
      (some (cands rng), rng + 1, attempts + 1) := by
  simp [genLoopAux, h]

/-- The attempts counter of the loop grows by at most the available fuel. -/
theorem genLoopAux_attempts_le (codes : List AccessCode) (cands : Nat → String) :
    ∀ fuel rng attempts,
      (genLoopAux codes cands fuel rng attempts).2.2 ≤ attempts + fuel := by
  intro fuel
  induction fuel with
  | zero => intro rng a; simp [genLoopAux]
  | succ n ih =>
    intro rng a
    by_cases h : accessCodeExists codes (cands rng) = true
    · simp only [genLoopAux, h, if_pos]
      have := ih (rng + 1) (a + 1)
      omega
    · rw [genLoopAux_first_fresh codes cands n rng a (eq_false_of_ne_true h)]
      show a + 1 ≤ a + (n + 1)
      omega

/-- The loop consumes at most `fuel` candidates from the random stream. -/
theorem genLoopAux_rng_le (codes : List AccessCode) (cands : Nat → String) :
    ∀ fuel rng attempts,
      (genLoopAux codes cands fuel rng attempts).2.1 ≤ rng + fuel := by
  intro fuel
  induction fuel with
  | zero => intro rng a; simp [genLoopAux]
  | succ n ih =>
    intro rng a
    by_cases h : accessCodeExists codes (cands rng) = true
    · simp only [genLoopAux, h, if_pos]
      have := ih (rng + 1) (a + 1)
      omega
    · rw [genLoopAux_first_fresh codes cands n rng a (eq_false_of_ne_true h)]
      show rng + 1 ≤ rng + (n + 1)
      omega

/-- If every candidate the loop can reach collides, the loop reports
exhaustion. -/
theorem genLoopAux_none_of_collide (codes : List AccessCode) (cands : Nat → String) :
    ∀ fuel rng attempts,
      (∀ i, i < fuel → accessCodeExists codes (cands (rng + i)) = true) →
      (genLoopAux codes cands fuel rng attempts).1 = none := by
  intro fuel
  induction fuel with
  | zero => intro rng a _; simp [genLoopAux]
  | succ n ih =>
    intro rng a h
    have h0 : accessCodeExists codes (cands rng) = true := by
      have := h 0 (Nat.succ_pos n); simpa using this
    simp only [genLoopAux, h0, if_pos]
    exact ih (rng + 1) (a + 1) (fun i hi => by
      have := h (i + 1) (Nat.succ_lt_succ hi)
      rwa [show rng + (i + 1) = rng + 1 + i by omega] at this)

/-! ### Helper lemmas: the per-request batch loop -/

/-- Every branch of the loop body pushes exactly one entry, onto `results`
or onto `errors`. -/
theorem processOne_entry_count (cands : Nat → String) (emailOk : Nat → Bool)
    (adminId now : Nat) (st : BatchState) (r : AccessRequest) :
    (processOne cands emailOk adminId now st r).results.length +
      (processOne cands emailOk adminId now st r).errors.length =
      st.results.length + st.errors.length + 1 := by
  unfold processOne
  cases hf : st.codes.find? (fun c => c.accessRequestId == some r.id) with
  | some c => simp; omega
  | none =>
    rcases hg : genUniqueLoop st.codes cands st.rng with ⟨o, rng2, att⟩
    cases o with
    | none => simp; omega
    | some code =>
      by_cases hm : emailOk r.id = true
      · simp [hm]; omega
      · simp [hm]; omega

/-- The loop body only appends to the codes table and the two accumulator
arrays (rows are never removed or modified). -/
theorem processOne_append (cands : Nat → String) (emailOk : Nat → Bool)
    (adminId now : Nat) (st : BatchState) (r : AccessRequest) :
    ∃ tc tr te,
      (processOne cands emailOk adminId now st r).codes = st.codes ++ tc ∧
      (processOne cands emailOk adminId now st r).results = st.results ++ tr ∧
      (processOne cands emailOk adminId now st r).errors = st.errors ++ te := by
  unfold processOne
  cases hf : st.codes.find? (fun c => c.accessRequestId == some r.id) with
  | some c =>
    exact ⟨[], [], [⟨r.id, r.email, "Access code already generated"⟩],
      by simp, by simp, by simp⟩
  | none =>
    rcases hg : genUniqueLoop st.codes cands st.rng with ⟨o, rng2, att⟩
    cases o with
    | none =>
      exact ⟨[], [], [⟨r.id, r.email, "Failed to generate unique code"⟩],
        by simp, by simp, by simp⟩
    | some code =>
      by_cases hm : emailOk r.id = true
      · exact ⟨[⟨code, false, none, none, now + 24 * 60 * 60 * 1000, adminId,
          "user_request", some r.id⟩], [⟨r.id, r.email, r.name, code⟩], [],
          by simp [hm], by simp [hm], by simp [hm]⟩
      · exact ⟨[⟨code, false, none, none, now + 24 * 60 * 60 * 1000, adminId,
          "user_request", some r.id⟩], [], [⟨r.id, r.email, "Email sending failed"⟩],
          by simp [hm], by simp [hm], by simp [hm]⟩

/-- Every error entry the loop body pushes carries the id of the processed
request. -/
theorem processOne_errors_sub (cands : Nat → String) (emailOk : Nat → Bool)
    (adminId now : Nat) (st : BatchState) (r : AccessRequest) :
    ∀ e ∈ (processOne cands emailOk adminId now st r).errors,
      e ∈ st.errors ∨ e.requestId = r.id := by
  unfold processOne
  cases hf : st.codes.find? (fun c => c.accessRequestId == some r.id) with
  | some c =>
    intro e hme
    rcases List.mem_append.mp hme with h | h
    · exact Or.inl h
    · right; rw [List.mem_singleton.mp h]
  | none =>
    rcases hg : genUniqueLoop st.codes cands st.rng with ⟨o, rng2, att⟩
    cases o with
    | none =>
      intro e hme
      rcases List.mem_append.mp hme with h | h
      · exact Or.inl h
      · right; rw [List.mem_singleton.mp h]
    | some code =>
      by_cases hm : emailOk r.id = true
      · simp only [hm, if_pos]
        exact fun e hme => Or.inl hme
      · simp only [hm]
        intro e hme
        rcases List.mem_append.mp hme with h | h
        · exact Or.inl h
        · right; rw [List.mem_singleton.mp h]

/-- Every success entry the loop body pushes carries the id of the processed
request. -/
theorem processOne_results_sub (cands : Nat → String) (emailOk : Nat → Bool)
    (adminId now : Nat) (st : BatchState) (r : AccessRequest) :
    ∀ e ∈ (processOne cands emailOk adminId now st r).results,
      e ∈ st.results ∨ e.requestId = r.id := by
  unfold processOne
  cases hf : st.codes.find? (fun c => c.accessRequestId == some r.id) with
  | some c => exact fun e hme => Or.inl hme
  | none =>
    rcases hg : genUniqueLoop st.codes cands st.rng with ⟨o, rng2, att⟩
    cases o with
    | none => exact fun e hme => Or.inl hme
    | some code =>
      by_cases hm : emailOk r.id = true
      · simp only [hm, if_pos]
        intro e hme
        rcases List.mem_append.mp hme with h | h
        · exact Or.inl h
        · right; rw [List.mem_singleton.mp h]
      · simp only [hm]
        exact fun e hme => Or.inl hme

/-- Folding the loop body over a request list produces exactly one entry per
request. -/
theorem foldl_entry_count (cands : Nat → String) (emailOk : Nat → Bool)
    (adminId now : Nat) (l : List AccessRequest) :
    ∀ st : BatchState,
      (l.foldl (processOne cands emailOk adminId now) st).results.length +
        (l.foldl (processOne cands emailOk adminId now) st).errors.length =
        st.results.length + st.errors.length + l.length := by
  induction l with
  | nil => intro st; simp
  | cons r t ih =>
    intro st
    simp only [List.foldl_cons, List.length_cons]
    rw [ih]
    have := processOne_entry_count cands emailOk adminId now st r
    omega

/-- Folding the loop body only appends to the codes table and the two
accumulator arrays. -/
theorem foldl_append (cands : Nat → String) (emailOk : Nat → Bool)
    (adminId now : Nat) (l : List AccessRequest) :
    ∀ st : BatchState, ∃ tc tr te,
      (l.foldl (processOne cands emailOk adminId now) st).codes = st.codes ++ tc ∧
      (l.foldl (processOne cands emailOk adminId now) st).results = st.results ++ tr ∧
      (l.foldl (processOne cands emailOk adminId now) st).errors = st.errors ++ te := by
  induction l with
  | nil => intro st; exact ⟨[], [], [], by simp, by simp, by simp⟩
  | cons r t ih =>
    intro st
    obtain ⟨tc1, tr1, te1, hc1, hr1, he1⟩ := processOne_append cands emailOk adminId now st r
    obtain ⟨tc2, tr2, te2, hc2, hr2, he2⟩ := ih (processOne cands emailOk adminId now st r)
    refine ⟨tc1 ++ tc2, tr1 ++ tr2, te1 ++ te2, ?_, ?_, ?_⟩ <;>
      simp only [List.foldl_cons, hc2, hr2, he2, hc1, hr1, he1, List.append_assoc]

/-- Every error entry produced by the fold is inherited from the initial
state or carries the id of one of the processed requests. -/
theorem foldl_errors_sub (cands : Nat → String) (emailOk : Nat → Bool)
    (adminId now : Nat) (l : List AccessRequest) :
    ∀ st : BatchState,
      ∀ e ∈ (l.foldl (processOne cands emailOk adminId now) st).errors,
        e ∈ st.errors ∨ ∃ q ∈ l, e.requestId = q.id := by
  induction l with
  | nil => intro st e hme; exact Or.inl hme
  | cons r t ih =>
    intro st e hme
    rw [List.foldl_cons] at hme
    rcases ih (processOne cands emailOk adminId now st r) e hme with h | ⟨q, hq, hid⟩
    · rcases processOne_errors_sub cands emailOk adminId now st r e h with h2 | h2
      · exact Or.inl h2
      · exact Or.inr ⟨r, List.mem_cons_self r t, h2⟩
    · exact Or.inr ⟨q, List.mem_cons_of_mem _ hq, hid⟩

/-- Every success entry produced by the fold is inherited from the initial
state or carries the id of one of the processed requests. -/
theorem foldl_results_sub (cands : Nat → String) (emailOk : Nat → Bool)
    (adminId now : Nat) (l : List AccessRequest) :
    ∀ st : BatchState,
      ∀ e ∈ (l.foldl (processOne cands emailOk adminId now) st).results,
        e ∈ st.results ∨ ∃ q ∈ l, e.requestId = q.id := by
  induction l with
  | nil => intro st e hme; exact Or.inl hme
  | cons r t ih =>
    intro st e hme
    rw [List.foldl_cons] at hme
    rcases ih (processOne cands emailOk adminId now st r) e hme with h | ⟨q, hq, hid⟩
    · rcases processOne_results_sub cands emailOk adminId now st r e h with h2 | h2
      · exact Or.inl h2
      · exact Or.inr ⟨r, List.mem_cons_self r t, h2⟩
    · exact Or.inr ⟨q, List.mem_cons_of_mem _ hq, hid⟩

/-- C7: for every 12-byte input, `generateAccessCode` returns a 12-character
string, each character drawn from the 32-symbol restricted alphabet, and the
byte-mod-32 mapping is exactly uniform: each alphabet symbol is the image of
exactly 8 of the 256 byte values. -/
theorem generateAccessCode_uniform (randomBytes : List Nat)
    (h : randomBytes.length = 12) :
    (generateAccessCode randomBytes).length = 12 ∧
    (∀ c ∈ (generateAccessCode randomBytes).toList, c ∈ accessCodeChars) ∧
    accessCodeChars.length = 32 ∧
    (∀ c ∈ accessCodeChars,
      ((List.range 256).filter
        (fun b => accessCodeChars.getD (b % accessCodeChars.length) ' ' == c)).length = 8) := by
  refine ⟨?_, ?_, by decide, by decide⟩
  · simp [generateAccessCode, String.length, h]
  · intro c hc
    simp only [generateAccessCode, String.toList, String.mk] at hc
    simp only [List.mem_map] at hc
    obtain ⟨b, _, rfl⟩ := hc
    have hlt : b % accessCodeChars.length < accessCodeChars.length := by
      exact Nat.mod_lt _ (by decide)
    rw [List.getD_eq_getElem _ _ hlt]
    exact List.getElem_mem _

/-- Witness for C7 at a concrete 12-byte input. -/
theorem generateAccessCode_uniform_witness :
    ([0, 1, 2, 3, 4, 5, 6, 7, 8, 9, 10, 11] : List Nat).length = 12 ∧
    (generateAccessCode [0, 1, 2, 3, 4, 5, 6, 7, 8, 9, 10, 11]).length = 12 :=
  ⟨by decide, (generateAccessCode_uniform [0, 1, 2, 3, 4, 5, 6, 7, 8, 9, 10, 11] (by decide)).1⟩

/-- C1 (evidence for the divergence): in a signup run where all client-side
checks pass, the use-access-code step succeeds (so the code is consumed) and
the account-creation step then fails, `handleSignup` surfaces the generic
catch-all message carrying the thrown error — not the spec-mandated
partial-redemption failure — and the access code stays consumed. -/
theorem handleSignup_generic_after_consume :
    handleSignup "a@x.com" "password123" "Alice" "ABCDEFGHJKLM"
        CodeValidationStatus.valid (Except.ok ()) (Except.error "Database error") =
      (SignupToast.genericSignupError "Database error", true) ∧
    SignupToast.genericSignupError "Database error" ≠
      SignupToast.incompleteRedemptionFailure :=
  ⟨by decide, by decide⟩

/-- C2 (counterexample): with R1 (id 1) approved and R2 (id 2) still pending,
`batchSendInvitations [1, 2]` returns a success entry for R1 but an *empty*
errors list — R2 produces no error entry at all, because the handler fetches
only approved requests. -/
theorem batchSend_pending_no_error_cex :
    batchSendInvitations
        ⟨[⟨1, "r1@x.com", "Rone", none, .approved, none, none, none⟩,
          ⟨2, "r2@x.com", "Rtwo", none, .pending, none, none, none⟩], [], []⟩
        [1, 2] (fun _ => "AAAAAAAAAAAA") (fun _ => true) 9 0 =
      (.ok [⟨1, "r1@x.com", "Rone", "AAAAAAAAAAAA"⟩] [] 2 1 0,
       [⟨"AAAAAAAAAAAA", false, none, none, 86400000, 9, "user_request", some 1⟩]) := by
  decide

/-- C2 (amended): for `batchSendInvitations [R1.id, R2.id]` with R1 approved
and R2 still pending, the call completes normally (an `ok` response, no
throw) with a success entry for R1, and R2 appears in neither the results
nor the errors list: ids that are not in approved status are silently
dropped by the approved-only fetch. -/
theorem batchSend_approved_ok_pending_dropped
    (db : DB) (r1 r2 : AccessRequest) (cands : Nat → String) (emailOk : Nat → Bool)
    (adminId now : Nat)
    (hnd : (db.requests.map AccessRequest.id).Nodup)
    (h1 : r1 ∈ db.requests) (h2 : r2 ∈ db.requests)
    (happ : r1.status = .approved) (hpend : r2.status = .pending)
    (hnoc : ∀ c ∈ db.codes, c.accessRequestId ≠ some r1.id)
    (hfresh : accessCodeExists db.codes (cands 0) = false)
    (hmail : emailOk r1.id = true) :
    batchSendInvitations db [r1.id, r2.id] cands emailOk adminId now =
      (.ok [⟨r1.id, r1.email, r1.name, cands 0⟩] [] 2 1 0,
       db.codes ++ [⟨cands 0, false, none, none, now + 24 * 60 * 60 * 1000,
         adminId, "user_request", some r1.id⟩]) := by
  have hfilter : db.requests.filter
      (fun r => [r1.id, r2.id].contains r.id && r.status == RequestStatus.approved) = [r1] := by
    apply filter_eq_single hnd h1
    · simp [happ]
    · intro q hq hpq
      simp only [List.contains_cons, List.contains_nil, Bool.or_false, Bool.and_eq_true,
        Bool.or_eq_true, beq_iff_eq] at hpq
      rcases hpq.1 with h | h
      · exact h
      · exfalso
        have : q = r2 := id_inj_of_nodup hnd q hq r2 h2 h
        rw [this, hpend] at hpq
        exact absurd hpq.2 (by simp)
  have hfind : db.codes.find? (fun c => c.accessRequestId == some r1.id) = none := by
    rw [List.find?_eq_none]
    intro c hc
    simp [hnoc c hc]
  have hgen : genUniqueLoop db.codes cands 0 = (some (cands 0), 1, 1) :=
    genLoopAux_first_fresh db.codes cands 9 0 0 hfresh
  have hstep : processOne cands emailOk adminId now
      ⟨db.codes, 0, [], []⟩ r1 =
      ⟨db.codes ++ [⟨cands 0, false, none, none, now + 24 * 60 * 60 * 1000,
        adminId, "user_request", some r1.id⟩], 1,
       [⟨r1.id, r1.email, r1.name, cands 0⟩], []⟩ := by
    simp only [processOne, hfind, hgen, hmail, if_true, List.nil_append]
  simp only [batchSendInvitations, List.isEmpty_cons, hfilter, Bool.false_eq_true,
    if_false, List.isEmpty_nil, List.foldl_cons, List.foldl_nil, hstep]
  simp

/-- Witness for the amended C2 at a concrete database. -/
theorem batchSend_approved_ok_pending_dropped_witness :
    batchSendInvitations
        ⟨[⟨4, "ann@y.org", "Ann", none, .approved, none, none, none⟩,
          ⟨7, "bob@y.org", "Bob", some "hi", .pending, none, none, none⟩],
         [], []⟩
        [4, 7] (fun _ => "BBBBBBBBBBBB") (fun _ => true) 5 100 =
      (.ok [⟨4, "ann@y.org", "Ann", "BBBBBBBBBBBB"⟩] [] 2 1 0,
       [] ++ [⟨"BBBBBBBBBBBB", false, none, none, 100 + 24 * 60 * 60 * 1000,
         5, "user_request", some 4⟩]) :=
  batchSend_approved_ok_pending_dropped
    ⟨[⟨4, "ann@y.org", "Ann", none, .approved, none, none, none⟩,
      ⟨7, "bob@y.org", "Bob", some "hi", .pending, none, none, none⟩], [], []⟩
    ⟨4, "ann@y.org", "Ann", none, .approved, none, none, none⟩
    ⟨7, "bob@y.org", "Bob", some "hi", .pending, none, none, none⟩
    (fun _ => "BBBBBBBBBBBB") (fun _ => true) 5 100
    (by decide) (by decide) (by decide) (by decide) (by decide)
    (by intro c hc; cases hc) (by decide) (by decide)

/-- C5: if a request already has a linked access code, a second issuance
attempt through the batch handler records a per-item
"Access code already generated" error, creates no new code and leaves the
codes table — in particular the existing linked code — unchanged. -/
theorem code_already_issued (db : DB) (r : AccessRequest) (c : AccessCode)
    (cands : Nat → String) (emailOk : Nat → Bool) (adminId now : Nat)
    (hnd : (db.requests.map AccessRequest.id).Nodup)
    (hmem : r ∈ db.requests) (happ : r.status = .approved)
    (hc : c ∈ db.codes) (hlink : c.accessRequestId = some r.id) :
    batchSendInvitations db [r.id] cands emailOk adminId now =
      (.ok [] [⟨r.id, r.email, "Access code already generated"⟩] 1 0 1, db.codes) := by
  have hfilter : db.requests.filter
      (fun q => [r.id].contains q.id && q.status == RequestStatus.approved) = [r] := by
    apply filter_eq_single hnd hmem
    · simp [happ]
    · intro q hq hpq
      simp only [List.contains_cons, List.contains_nil, Bool.or_false, Bool.and_eq_true,
        beq_iff_eq] at hpq
      exact hpq.1
  have hsome : (db.codes.find? (fun k => k.accessRequestId == some r.id)).isSome := by
    rw [List.find?_isSome]
    exact ⟨c, hc, by simp [hlink]⟩
  obtain ⟨c2, hc2⟩ := Option.isSome_iff_exists.mp hsome
  have hstep : processOne cands emailOk adminId now ⟨db.codes, 0, [], []⟩ r =
      ⟨db.codes, 0, [], [⟨r.id, r.email, "Access code already generated"⟩]⟩ := by
    simp only [processOne, hc2, List.nil_append]
  simp only [batchSendInvitations, List.isEmpty_cons, hfilter, Bool.false_eq_true,
    if_false, List.isEmpty_nil, List.foldl_cons, List.foldl_nil, hstep]
  simp

/-- Witness for C5 at a concrete database with one already-linked code. -/
theorem code_already_issued_witness :
    batchSendInvitations
        ⟨[⟨3, "cam@z.io", "Cam", none, .approved, some 1, some 2, none⟩],
         [⟨"CCCCCCCCCCCC", false, none, none, 500, 2, "user_request", some 3⟩],
         []⟩
        [3] (fun _ => "DDDDDDDDDDDD") (fun _ => true) 2 900 =
      (.ok [] [⟨3, "cam@z.io", "Access code already generated"⟩] 1 0 1,
       [⟨"CCCCCCCCCCCC", false, none, none, 500, 2, "user_request", some 3⟩]) :=
  code_already_issued
    ⟨[⟨3, "cam@z.io", "Cam", none, .approved, some 1, some 2, none⟩],
     [⟨"CCCCCCCCCCCC", false, none, none, 500, 2, "user_request", some 3⟩], []⟩
    ⟨3, "cam@z.io", "Cam", none, .approved, some 1, some 2, none⟩
    ⟨"CCCCCCCCCCCC", false, none, none, 500, 2, "user_request", some 3⟩
    (fun _ => "DDDDDDDDDDDD") (fun _ => true) 2 900
    (by decide) (by decide) (by decide) (by decide) (by decide)

/-- C6: the uniqueness-resolution loop is bounded — for every issuance it
makes at most 10 attempts and consumes at most 10 candidates — and when all
10 candidates collide with stored codes the batch item fails with the
per-item code-generation-exhausted error ("Failed to generate unique code"),
persisting no code. -/
theorem code_generation_bounded (db : DB) (r : AccessRequest)
    (cands : Nat → String) (emailOk : Nat → Bool) (adminId now : Nat)
    (hnd : (db.requests.map AccessRequest.id).Nodup)
    (hmem : r ∈ db.requests) (happ : r.status = .approved)
    (hnoc : ∀ c ∈ db.codes, c.accessRequestId ≠ some r.id)
    (hcollide : ∀ i, i < 10 → accessCodeExists db.codes (cands i) = true) :
    (∀ (codes2 : List AccessCode) (cands2 : Nat → String) (rng : Nat),
      (genUniqueLoop codes2 cands2 rng).2.2 ≤ 10 ∧
      (genUniqueLoop codes2 cands2 rng).2.1 ≤ rng + 10) ∧
    batchSendInvitations db [r.id] cands emailOk adminId now =
      (.ok [] [⟨r.id, r.email, "Failed to generate unique code"⟩] 1 0 1,
       db.codes) := by
  constructor
  · intro codes2 cands2 rng
    exact ⟨genLoopAux_attempts_le codes2 cands2 10 rng 0,
           genLoopAux_rng_le codes2 cands2 10 rng 0⟩
  · have hfilter : db.requests.filter
        (fun q => [r.id].contains q.id && q.status == RequestStatus.approved) = [r] := by
      apply filter_eq_single hnd hmem
      · simp [happ]
      · intro q hq hpq
        simp only [List.contains_cons, List.contains_nil, Bool.or_false, Bool.and_eq_true,
          beq_iff_eq] at hpq
        exact hpq.1
    have hfind : db.codes.find? (fun c => c.accessRequestId == some r.id) = none := by
      rw [List.find?_eq_none]
      intro c hc
      simp [hnoc c hc]
    rcases hg : genUniqueLoop db.codes cands 0 with ⟨o, rng2, att⟩
    have ho : o = none := by
      have := genLoopAux_none_of_collide db.codes cands 10 0 0 (by simpa using hcollide)
      rw [show genLoopAux db.codes cands 10 0 0 = genUniqueLoop db.codes cands 0 from rfl,
        hg] at this
      exact this
    subst ho
    have hstep : processOne cands emailOk adminId now ⟨db.codes, 0, [], []⟩ r =
        ⟨db.codes, rng2, [], [⟨r.id, r.email, "Failed to generate unique code"⟩]⟩ := by
      simp only [processOne, hfind, hg, List.nil_append]
    simp only [batchSendInvitations, List.isEmpty_cons, hfilter, Bool.false_eq_true,
      if_false, List.isEmpty_nil, List.foldl_cons, List.foldl_nil, hstep]
    simp

/-- Witness for C6: one approved request, a single stored code, and a
candidate stream that always collides with it. -/
theorem code_generation_bounded_witness :
    (genUniqueLoop
        [⟨"EEEEEEEEEEEE", false, none, none, 10, 1, "admin_invite", none⟩]
        (fun _ => "EEEEEEEEEEEE") 0).2.2 ≤ 10 ∧
    batchSendInvitations
        ⟨[⟨8, "dee@w.net", "Dee", none, .approved, none, none, none⟩],
         [⟨"EEEEEEEEEEEE", false, none, none, 10, 1, "admin_invite", none⟩], []⟩
        [8] (fun _ => "EEEEEEEEEEEE") (fun _ => true) 1 0 =
      (.ok [] [⟨8, "dee@w.net", "Failed to generate unique code"⟩] 1 0 1,
       [⟨"EEEEEEEEEEEE", false, none, none, 10, 1, "admin_invite", none⟩]) := by
  have h := code_generation_bounded
    ⟨[⟨8, "dee@w.net", "Dee", none, .approved, none, none, none⟩],
     [⟨"EEEEEEEEEEEE", false, none, none, 10, 1, "admin_invite", none⟩], []⟩
    ⟨8, "dee@w.net", "Dee", none, .approved, none, none, none⟩
    (fun _ => "EEEEEEEEEEEE") (fun _ => true) 1 0
    (by decide) (by decide) (by decide) (by decide) (by decide)
  exact ⟨(h.1 _ _ 0).1, h.2⟩

/-- C8: when the invitation email fails after the access-code row was
created, the loop body leaves the created row persisted (appended, not
deleted or modified), records the per-item "Email sending failed" error, and
processing of any remaining items continues — the row and the error entry
survive the rest of the fold, which still produces exactly one outcome entry
per remaining request. -/
theorem email_failure_keeps_code (cands : Nat → String) (emailOk : Nat → Bool)
    (adminId now : Nat) (st : BatchState) (r : AccessRequest)
    (hnoc : ∀ c ∈ st.codes, c.accessRequestId ≠ some r.id)
    (hfresh : accessCodeExists st.codes (cands st.rng) = false)
    (hmail : emailOk r.id = false) :
    (processOne cands emailOk adminId now st r).codes =
      st.codes ++ [⟨cands st.rng, false, none, none, now + 24 * 60 * 60 * 1000,
        adminId, "user_request", some r.id⟩] ∧
    (processOne cands emailOk adminId now st r).errors =
      st.errors ++ [⟨r.id, r.email, "Email sending failed"⟩] ∧
    (processOne cands emailOk adminId now st r).results = st.results ∧
    ∀ rest : List AccessRequest,
      (⟨cands st.rng, false, none, none, now + 24 * 60 * 60 * 1000, adminId,
        "user_request", some r.id⟩ : AccessCode) ∈
        (rest.foldl (processOne cands emailOk adminId now)
          (processOne cands emailOk adminId now st r)).codes ∧
      (⟨r.id, r.email, "Email sending failed"⟩ : SendError) ∈
        (rest.foldl (processOne cands emailOk adminId now)
          (processOne cands emailOk adminId now st r)).errors ∧
      (rest.foldl (processOne cands emailOk adminId now)
          (processOne cands emailOk adminId now st r)).results.length +
        (rest.foldl (processOne cands emailOk adminId now)
          (processOne cands emailOk adminId now st r)).errors.length =
        st.results.length + st.errors.length + 1 + rest.length := by
  have hfind : st.codes.find? (fun c => c.accessRequestId == some r.id) = none := by
    rw [List.find?_eq_none]
    intro c hc
    simp [hnoc c hc]
  have hg : genUniqueLoop st.codes cands st.rng = (some (cands st.rng), st.rng + 1, 1) :=
    genLoopAux_first_fresh st.codes cands 9 st.rng 0 hfresh
  have hstep : processOne cands emailOk adminId now st r =
      ⟨st.codes ++ [⟨cands st.rng, false, none, none, now + 24 * 60 * 60 * 1000,
        adminId, "user_request", some r.id⟩], st.rng + 1, st.results,
       st.errors ++ [⟨r.id, r.email, "Email sending failed"⟩]⟩ := by
    simp only [processOne, hfind, hg, hmail, Bool.false_eq_true, if_false]
  refine ⟨by rw [hstep], by rw [hstep], by rw [hstep], ?_⟩
  intro rest
  obtain ⟨tc, tr, te, hcs, hrs, hes⟩ :=
    foldl_append cands emailOk adminId now rest (processOne cands emailOk adminId now st r)
  refine ⟨?_, ?_, ?_⟩
  · rw [hcs, hstep]
    exact List.mem_append_left _ (List.mem_append_right _ (List.mem_singleton.mpr rfl))
  · rw [hes, hstep]
    exact List.mem_append_left _ (List.mem_append_right _ (List.mem_singleton.mpr rfl))
  · rw [foldl_entry_count cands emailOk adminId now rest
      (processOne cands emailOk adminId now st r), hstep]
    simp
    omega

/-- Witness for C8: one fresh candidate, email dispatch failing, one further
request processed afterwards. -/
theorem email_failure_keeps_code_witness :
    (processOne (fun _ => "FFFFFFFFFFFF") (fun _ => false) 1 0
        ⟨[], 0, [], []⟩ ⟨5, "eve@q.me", "Eve", none, .approved, none, none, none⟩).errors =
      [] ++ [⟨5, "eve@q.me", "Email sending failed"⟩] ∧
    (⟨"FFFFFFFFFFFF", false, none, none, 0 + 24 * 60 * 60 * 1000, 1,
      "user_request", some 5⟩ : AccessCode) ∈
      ([⟨6, "fay@q.me", "Fay", none, .approved, none, none, none⟩].foldl
        (processOne (fun _ => "FFFFFFFFFFFF") (fun _ => false) 1 0)
        (processOne (fun _ => "FFFFFFFFFFFF") (fun _ => false) 1 0
          ⟨[], 0, [], []⟩ ⟨5, "eve@q.me", "Eve", none, .approved, none, none, none⟩)).codes := by
  have h := email_failure_keeps_code (fun _ => "FFFFFFFFFFFF") (fun _ => false) 1 0
    ⟨[], 0, [], []⟩ ⟨5, "eve@q.me", "Eve", none, .approved, none, none, none⟩
    (by intro c hc; cases hc) (by decide) (by decide)
  exact ⟨h.2.1, (h.2.2.2 [⟨6, "fay@q.me", "Fay", none, .approved, none, none, none⟩]).1⟩

/-- C10: in the batch-send response, `summary.total` counts the supplied ids
while `summary.successful + summary.failed` counts only the requests found
in approved status; supplied ids without an approved request appear in
neither the results nor the errors list; with no approved request at all the
handler returns the 404 response instead of an empty results/errors pair;
and under primary-key uniqueness and distinct supplied ids, any unmatched id
makes `successful + failed` strictly less than `total`. -/
theorem batchSend_summary (db : DB) (requestIds : List Nat)
    (cands : Nat → String) (emailOk : Nat → Bool) (adminId now : Nat)
    (found : List AccessRequest)
    (hne : requestIds ≠ [])
    (hfound : db.requests.filter
        (fun r => requestIds.contains r.id && r.status == RequestStatus.approved) = found) :
    (found = [] →
      batchSendInvitations db requestIds cands emailOk adminId now =
        (.notFound, db.codes)) ∧
    (found ≠ [] → ∃ results errors,
      (batchSendInvitations db requestIds cands emailOk adminId now).1 =
        .ok results errors requestIds.length results.length errors.length ∧
      results.length + errors.length = found.length ∧
      ∀ id ∈ requestIds,
        (∀ q ∈ db.requests, q.id = id → q.status ≠ .approved) →
        (∀ e ∈ results, e.requestId ≠ id) ∧ (∀ e ∈ errors, e.requestId ≠ id)) ∧
    ((db.requests.map AccessRequest.id).Nodup → requestIds.Nodup →
      (∃ id ∈ requestIds, ∀ q ∈ db.requests, q.id = id → q.status ≠ .approved) →
      found.length < requestIds.length) := by
  have hie : requestIds.isEmpty = false := by
    cases requestIds with
    | nil => exact absurd rfl hne
    | cons a t => rfl
  refine ⟨?_, ?_, ?_⟩
  · intro hempty
    simp only [batchSendInvitations, hie, Bool.false_eq_true, if_false, hfound, hempty,
      List.isEmpty_nil, if_true]
  · intro hnonempty
    have hfe : found.isEmpty = false := by
      cases found with
      | nil => exact absurd rfl hnonempty
      | cons a t => rfl
    refine ⟨(found.foldl (processOne cands emailOk adminId now)
        ⟨db.codes, 0, [], []⟩).results,
      (found.foldl (processOne cands emailOk adminId now)
        ⟨db.codes, 0, [], []⟩).errors, ?_, ?_, ?_⟩
    · simp only [batchSendInvitations, hie, Bool.false_eq_true, if_false, hfound, hfe]
    · simpa using foldl_entry_count cands emailOk adminId now found ⟨db.codes, 0, [], []⟩
    · intro id hid hnotapp
      have hq : ∀ q ∈ found, q ∈ db.requests ∧ q.status = .approved := by
        intro q hqf
        rw [← hfound] at hqf
        have := List.mem_filter.mp hqf
        refine ⟨this.1, ?_⟩
        have := this.2
        simp only [Bool.and_eq_true, beq_iff_eq] at this
        exact this.2
      constructor
      · intro e he
        rcases foldl_results_sub cands emailOk adminId now found
            ⟨db.codes, 0, [], []⟩ e he with h | ⟨q, hqf, hidq⟩
        · cases h
        · intro hcon
          obtain ⟨hqdb, hqapp⟩ := hq q hqf
          exact hnotapp q hqdb (by rw [← hidq, hcon]) hqapp
      · intro e he
        rcases foldl_errors_sub cands emailOk adminId now found
            ⟨db.codes, 0, [], []⟩ e he with h | ⟨q, hqf, hidq⟩
        · cases h
        · intro hcon
          obtain ⟨hqdb, hqapp⟩ := hq q hqf
          exact hnotapp q hqdb (by rw [← hidq, hcon]) hqapp
  · intro hnd hids ⟨id0, hid0, hnotapp⟩
    have hsubl : found.Sublist db.requests := by
      rw [← hfound]; exact List.filter_sublist _
    have hndf : (found.map AccessRequest.id).Nodup :=
      hnd.sublist (hsubl.map AccessRequest.id)
    have hsub : found.map AccessRequest.id ⊆ requestIds.erase id0 := by
      intro x hx
      obtain ⟨q, hqf, rfl⟩ := List.mem_map.mp hx
      have hqfil := hqf
      rw [← hfound] at hqfil
      have hm := List.mem_filter.mp hqfil
      have hpred := hm.2
      simp only [Bool.and_eq_true, beq_iff_eq] at hpred
      have hqin : q.id ∈ requestIds := by
        have := hpred.1
        simpa using this
      have hneq : q.id ≠ id0 := by
        intro h
        exact hnotapp q hm.1 h hpred.2
      exact (List.mem_erase_of_ne hneq).mpr hqin
    have hlen : (found.map AccessRequest.id).length ≤ (requestIds.erase id0).length :=
      (List.subperm_of_subset hndf hsub).length_le
    have h1 : (requestIds.erase id0).length = requestIds.length - 1 :=
      List.length_erase_of_mem hid0
    have h2 : 0 < requestIds.length := List.length_pos.mpr (by
      intro h; rw [h] at hid0; cases hid0)
    rw [List.length_map] at hlen
    omega

/-- Witness for C10: no approved request among the supplied ids yields the
404 response. -/
theorem batchSend_summary_witness :
    batchSendInvitations ⟨[], [], []⟩ [1] (fun _ => "GGGGGGGGGGGG") (fun _ => true) 1 0 =
      (.notFound, []) :=
  (batchSend_summary ⟨[], [], []⟩ [1] (fun _ => "GGGGGGGGGGGG") (fun _ => true) 1 0 []
    (by decide) (by decide)).1 rfl

/-- An id-preserving table update that fixes the row `r` preserves both the
presence of `r` and the fact that `r` is the only row with its id. -/
theorem mem_uniq_map {l : List AccessRequest} {r : AccessRequest}
    {f : AccessRequest → AccessRequest}
    (hid : ∀ q, (f q).id = q.id) (hfr : f r = r)
    (hmem : r ∈ l) (huni : ∀ q ∈ l, q.id = r.id → q = r) :
    r ∈ l.map f ∧ ∀ q ∈ l.map f, q.id = r.id → q = r := by
  constructor
  · have := List.mem_map_of_mem f hmem
    rwa [hfr] at this
  · intro q hq hqid
    obtain ⟨z, hz, rfl⟩ := List.mem_map.mp hq
    have hzid : z.id = r.id := by rw [← hid z]; exact hqid
    rw [huni z hz hzid, hfr]

/-- The approve handler never touches a non-pending row `r`: `r` stays in
the table and stays the only row with its id. -/
theorem approvePOST_preserves (db : DB) (r : AccessRequest)
    (hst : r.status ≠ .pending) (hmem : r ∈ db.requests)
    (huni : ∀ q ∈ db.requests, q.id = r.id → q = r)
    (id reviewerId now : Nat) :
    r ∈ (approvePOST db id reviewerId now).2.requests ∧
      ∀ q ∈ (approvePOST db id reviewerId now).2.requests, q.id = r.id → q = r := by
  unfold approvePOST
  cases hf : findRequest db id with
  | none => exact ⟨hmem, huni⟩
  | some q =>
    dsimp only
    by_cases hq : (q.status == RequestStatus.pending) = true
    · rw [if_pos hq]
      have hqmem : q ∈ db.requests := List.mem_of_find?_eq_some hf
      have hqid : q.id = id := by simpa using List.find?_some hf
      have hqpend : q.status = RequestStatus.pending := by simpa using hq
      have hne : (r.id == id) = false := by
        rw [beq_eq_false_iff_ne]
        intro h
        have hqr : q = r := huni q hqmem (by rw [hqid, h])
        rw [hqr] at hqpend
        exact hst hqpend
      unfold updateRequest
      exact mem_uniq_map
        (fun z => by by_cases hz : (z.id == id) = true <;> simp [hz])
        (by simp [hne]) hmem huni
    · rw [if_neg hq]
      exact ⟨hmem, huni⟩

/-- The reject handler never touches a non-pending row `r`. -/
theorem rejectPOST_preserves (db : DB) (r : AccessRequest)
    (hst : r.status ≠ .pending) (hmem : r ∈ db.requests)
    (huni : ∀ q ∈ db.requests, q.id = r.id → q = r)
    (id reviewerId : Nat) (reason : Option String) (now : Nat) :
    r ∈ (rejectPOST db id reviewerId reason now).2.requests ∧
      ∀ q ∈ (rejectPOST db id reviewerId reason now).2.requests, q.id = r.id → q = r := by
  unfold rejectPOST
  cases hf : findRequest db id with
  | none => exact ⟨hmem, huni⟩
  | some q =>
    dsimp only
    by_cases hq : (q.status == RequestStatus.pending) = true
    · rw [if_pos hq]
      have hqmem : q ∈ db.requests := List.mem_of_find?_eq_some hf
      have hqid : q.id = id := by simpa using List.find?_some hf
      have hqpend : q.status = RequestStatus.pending := by simpa using hq
      have hne : (r.id == id) = false := by
        rw [beq_eq_false_iff_ne]
        intro h
        have hqr : q = r := huni q hqmem (by rw [hqid, h])
        rw [hqr] at hqpend
        exact hst hqpend
      unfold updateRequest
      exact mem_uniq_map
        (fun z => by by_cases hz : (z.id == id) = true <;> simp [hz])
        (by simp [hne]) hmem huni
    · rw [if_neg hq]
      exact ⟨hmem, huni⟩

/-- The batch-approve handler skips every non-pending row `r`. -/
theorem batchApprovePOST_preserves (db : DB) (r : AccessRequest)
    (hst : r.status ≠ .pending) (hmem : r ∈ db.requests)
    (huni : ∀ q ∈ db.requests, q.id = r.id → q = r)
    (requestIds : List Nat) (reviewerId now : Nat) :
    r ∈ (batchApprovePOST db requestIds reviewerId now).2.requests ∧
      ∀ q ∈ (batchApprovePOST db requestIds reviewerId now).2.requests,
        q.id = r.id → q = r := by
  unfold batchApprovePOST
  by_cases hids : requestIds.isEmpty = true
  · rw [if_pos hids]
    exact ⟨hmem, huni⟩
  · rw [if_neg hids]
    have hneg : ¬ (requestIds.contains r.id && (r.status == RequestStatus.pending)) = true := by
      simp [beq_eq_false_iff_ne.mpr hst]
    exact mem_uniq_map
      (fun z => by
        dsimp only
        by_cases hz : (requestIds.contains z.id && (z.status == RequestStatus.pending)) = true
        · rw [if_pos hz]
        · rw [if_neg hz])
      (by dsimp only; rw [if_neg hneg]) hmem huni

/-- Any single admin operation preserves a non-pending row `r` untouched. -/
theorem applyOp_preserves (db : DB) (r : AccessRequest) (op : AdminOp)
    (hst : r.status ≠ .pending) (hmem : r ∈ db.requests)
    (huni : ∀ q ∈ db.requests, q.id = r.id → q = r) :
    r ∈ (applyOp db op).requests ∧
      ∀ q ∈ (applyOp db op).requests, q.id = r.id → q = r := by
  cases op with
  | approve id reviewerId now =>
    exact approvePOST_preserves db r hst hmem huni id reviewerId now
  | reject id reviewerId reason now =>
    exact rejectPOST_preserves db r hst hmem huni id reviewerId reason now
  | batchApprove ids reviewerId now =>
    exact batchApprovePOST_preserves db r hst hmem huni ids reviewerId now

/-- Any sequence of admin operations preserves a non-pending row `r`
untouched. -/
theorem foldl_ops_preserves (r : AccessRequest) (hst : r.status ≠ .pending) :
    ∀ (ops : List AdminOp) (db : DB), r ∈ db.requests →
      (∀ q ∈ db.requests, q.id = r.id → q = r) →
      r ∈ (ops.foldl applyOp db).requests ∧
        ∀ q ∈ (ops.foldl applyOp db).requests, q.id = r.id → q = r := by
  intro ops
  induction ops with
  | nil => intro db hmem huni; exact ⟨hmem, huni⟩
  | cons op t ih =>
    intro db hmem huni
    have h := applyOp_preserves db r op hst hmem huni
    simpa [List.foldl_cons] using ih (applyOp db op) h.1 h.2

/-- C3: a request whose status is not pending is frozen — approve and reject
on it answer the already-reviewed error and change nothing, batch-approve
skips it, and after any sequence of approve / reject / batch-approve
operations the row (status, reviewedAt, reviewedBy, everything) reads back
unchanged. -/
theorem accessRequest_status_monotonic (db : DB) (r : AccessRequest)
    (hmem : r ∈ db.requests)
    (huni : ∀ q ∈ db.requests, q.id = r.id → q = r)
    (hst : r.status ≠ .pending) :
    (∀ reviewerId now,
      approvePOST db r.id reviewerId now = (.alreadyReviewed r.status, db)) ∧
    (∀ reviewerId reason now,
      rejectPOST db r.id reviewerId reason now = (.alreadyReviewed r.status, db)) ∧
    (∀ requestIds reviewerId now,
      findRequest (batchApprovePOST db requestIds reviewerId now).2 r.id = some r) ∧
    (∀ ops : List AdminOp, findRequest (ops.foldl applyOp db) r.id = some r) := by
  have hfind : findRequest db r.id = some r := find?_id_eq_some hmem huni
  have hbe : ¬ (r.status == RequestStatus.pending) = true := by
    simp [beq_eq_false_iff_ne.mpr hst]
  refine ⟨?_, ?_, ?_, ?_⟩
  · intro reviewerId now
    unfold approvePOST
    rw [hfind]
    dsimp only
    rw [if_neg hbe]
  · intro reviewerId reason now
    unfold rejectPOST
    rw [hfind]
    dsimp only
    rw [if_neg hbe]
  · intro requestIds reviewerId now
    have h := batchApprovePOST_preserves db r hst hmem huni requestIds reviewerId now
    exact find?_id_eq_some h.1 h.2
  · intro ops
    have h := foldl_ops_preserves r hst ops db hmem huni
    exact find?_id_eq_some h.1 h.2

/-- Witness for C3 at a one-row database holding an already-approved
request. -/
theorem accessRequest_status_monotonic_witness :
    approvePOST ⟨[⟨1, "gil@p.co", "Gil", none, .approved, some 2, some 3, none⟩], [], []⟩
        1 7 8 =
      (.alreadyReviewed .approved,
       ⟨[⟨1, "gil@p.co", "Gil", none, .approved, some 2, some 3, none⟩], [], []⟩) :=
  (accessRequest_status_monotonic
    ⟨[⟨1, "gil@p.co", "Gil", none, .approved, some 2, some 3, none⟩], [], []⟩
    ⟨1, "gil@p.co", "Gil", none, .approved, some 2, some 3, none⟩
    (by decide) (by decide) (by decide)).1 7 8

/-- C4: once validation, CAPTCHA and the rate limit pass, submit fails with
the duplicate-pending conflict when a pending request exists for the
lowercased email (creating no row), fails with the account-exists conflict
when an account is registered for it (creating no row), and otherwise
creates exactly one new pending request storing the lowercased email. -/
theorem submit_request_access (db : DB) (rate : String → Nat) (input : ReqInput)
    (newId : Nat)
    (hemail : input.email.isEmpty = false)
    (hname : input.name.isEmpty = false)
    (hregex : emailRegexTest input.email = true)
    (hlen1 : 2 ≤ input.name.length) (hlen2 : input.name.length ≤ 255)
    (htok : input.captchaToken.isNone = false)
    (hrate : rate (toLowerCase input.email) < accessRequestPoints) :
    (db.requests.any (fun r => r.email == toLowerCase input.email &&
        r.status == RequestStatus.pending) = true →
      requestAccessPOST db rate input true newId =
        (.duplicatePending, db,
         fun k => if k = toLowerCase input.email
           then rate (toLowerCase input.email) + 1 else rate k)) ∧
    (db.requests.any (fun r => r.email == toLowerCase input.email &&
        r.status == RequestStatus.pending) = false →
      db.users.contains (toLowerCase input.email) = true →
      requestAccessPOST db rate input true newId =
        (.accountExists, db,
         fun k => if k = toLowerCase input.email
           then rate (toLowerCase input.email) + 1 else rate k)) ∧
    (db.requests.any (fun r => r.email == toLowerCase input.email &&
        r.status == RequestStatus.pending) = false →
      db.users.contains (toLowerCase input.email) = false →
      requestAccessPOST db rate input true newId =
        (.created,
         { db with requests := db.requests ++
             [⟨newId, toLowerCase input.email, input.name, input.message,
               .pending, none, none, none⟩] },
         fun k => if k = toLowerCase input.email
           then rate (toLowerCase input.email) + 1 else rate k)) := by
  have hc : checkRateLimit accessRequestPoints rate (toLowerCase input.email) =
      (true, fun k => if k = toLowerCase input.email
        then rate (toLowerCase input.email) + 1 else rate k) := by
    unfold checkRateLimit
    rw [if_pos hrate]
  have hv1 : ¬ (input.email.isEmpty || input.name.isEmpty) = true := by
    simp [hemail, hname]
  have hv2 : ¬ (!emailRegexTest input.email) = true := by simp [hregex]
  have hv3 : ¬ (decide (input.name.length < 2) || decide (input.name.length > 255)) = true := by
    simp only [Bool.or_eq_true, decide_eq_true_eq]
    omega
  have hv4 : ¬ input.captchaToken.isNone = true := by simp [htok]
  have hv5 : ¬ (!true) = true := by decide
  refine ⟨?_, ?_, ?_⟩
  · intro hdup
    unfold requestAccessPOST
    rw [if_neg hv1, if_neg hv2, if_neg hv3, if_neg hv4, if_neg hv5]
    dsimp only
    rw [hc]
    dsimp only
    rw [if_pos hdup]
  · intro hdup hacct
    unfold requestAccessPOST
    rw [if_neg hv1, if_neg hv2, if_neg hv3, if_neg hv4, if_neg hv5]
    dsimp only
    rw [hc]
    dsimp only
    rw [if_neg (by rw [hdup]; simp), if_pos hacct]
  · intro hdup hacct
    unfold requestAccessPOST
    rw [if_neg hv1, if_neg hv2, if_neg hv3, if_neg hv4, if_neg hv5]
    dsimp only
    rw [hc]
    dsimp only
    rw [if_neg (by rw [hdup]; simp), if_neg (by rw [hacct]; simp)]

/-- Witness for C4: an empty database, a fresh email, the created case. -/
theorem submit_request_access_witness :
    (requestAccessPOST ⟨[], [], []⟩ (fun _ => 0)
        ⟨"A@x.com", "Al", none, some "tok"⟩ true 5).1 = .created := by
  have h := (submit_request_access ⟨[], [], []⟩ (fun _ => 0)
    ⟨"A@x.com", "Al", none, some "tok"⟩ 5
    (by decide) (by decide) (by decide) (by decide) (by decide) (by decide)
    (by decide)).2.2 (by decide) (by decide)
  exact congrArg Prod.fst h

/-- C9: the rate-limit point is consumed before the duplicate-pending and
account-exists checks — whenever budget remains, a submit that passes CAPTCHA
increments the counter of the email even though it then fails with the
duplicate-pending conflict and creates nothing; once the budget is gone the
handler answers rate-limited; hence three consecutive rejected duplicate
submissions starting from a zero counter exhaust the 3-point budget and the
fourth attempt is rate-limited. -/
theorem rateLimit_consumed_before_checks (db : DB) (rate : String → Nat)
    (input : ReqInput) (newId : Nat)
    (hemail : input.email.isEmpty = false)
    (hname : input.name.isEmpty = false)
    (hregex : emailRegexTest input.email = true)
    (hlen1 : 2 ≤ input.name.length) (hlen2 : input.name.length ≤ 255)
    (htok : input.captchaToken.isNone = false)
    (hdup : db.requests.any (fun r => r.email == toLowerCase input.email &&
        r.status == RequestStatus.pending) = true) :
    (∀ rt : String → Nat, rt (toLowerCase input.email) < accessRequestPoints →
      (requestAccessPOST db rt input true newId).1 = .duplicatePending ∧
      (requestAccessPOST db rt input true newId).2.1 = db ∧
      (requestAccessPOST db rt input true newId).2.2 (toLowerCase input.email) =
        rt (toLowerCase input.email) + 1) ∧
    (∀ rt : String → Nat, ¬ rt (toLowerCase input.email) < accessRequestPoints →
      (requestAccessPOST db rt input true newId).1 = .rateLimited) ∧
    (rate (toLowerCase input.email) = 0 →
      (requestAccessPOST db
        ((requestAccessPOST db
          ((requestAccessPOST db
            ((requestAccessPOST db rate input true newId).2.2)
            input true newId).2.2)
          input true newId).2.2)
        input true newId).1 = .rateLimited) := by
  have hv1 : ¬ (input.email.isEmpty || input.name.isEmpty) = true := by
    simp [hemail, hname]
  have hv2 : ¬ (!emailRegexTest input.email) = true := by simp [hregex]
  have hv3 : ¬ (decide (input.name.length < 2) || decide (input.name.length > 255)) = true := by
    simp only [Bool.or_eq_true, decide_eq_true_eq]
    omega
  have hv4 : ¬ input.captchaToken.isNone = true := by simp [htok]
  have hv5 : ¬ (!true) = true := by decide
  have hallowed : ∀ rt : String → Nat, rt (toLowerCase input.email) < accessRequestPoints →
      requestAccessPOST db rt input true newId =
        (.duplicatePending, db,
         fun k => if k = toLowerCase input.email
           then rt (toLowerCase input.email) + 1 else rt k) := by
    intro rt hrt
    have hc : checkRateLimit accessRequestPoints rt (toLowerCase input.email) =
        (true, fun k => if k = toLowerCase input.email
          then rt (toLowerCase input.email) + 1 else rt k) := by
      unfold checkRateLimit
      rw [if_pos hrt]
    unfold requestAccessPOST
    rw [if_neg hv1, if_neg hv2, if_neg hv3, if_neg hv4, if_neg hv5]
    dsimp only
    rw [hc]
    dsimp only
    rw [if_pos hdup]
  have hblocked : ∀ rt : String → Nat,
      ¬ rt (toLowerCase input.email) < accessRequestPoints →
      requestAccessPOST db rt input true newId = (.rateLimited, db, rt) := by
    intro rt hrt
    have hc : checkRateLimit accessRequestPoints rt (toLowerCase input.email) =
        (false, rt) := by
      unfold checkRateLimit
      rw [if_neg hrt]
    unfold requestAccessPOST
    rw [if_neg hv1, if_neg hv2, if_neg hv3, if_neg hv4, if_neg hv5]
    dsimp only
    rw [hc]
  have hkey : ∀ rt : String → Nat, rt (toLowerCase input.email) < accessRequestPoints →
      (requestAccessPOST db rt input true newId).2.2 (toLowerCase input.email) =
        rt (toLowerCase input.email) + 1 := by
    intro rt hrt
    rw [hallowed rt hrt]
    simp
  refine ⟨?_, ?_, ?_⟩
  · intro rt hrt
    rw [hallowed rt hrt]
    exact ⟨rfl, rfl, by simp⟩
  · intro rt hrt
    rw [hblocked rt hrt]
  · intro h0
    have k1 : (requestAccessPOST db rate input true newId).2.2
        (toLowerCase input.email) = 1 := by
      rw [hkey rate (by rw [h0]; decide)]
      omega
    have k2 : (requestAccessPOST db
        ((requestAccessPOST db rate input true newId).2.2)
        input true newId).2.2 (toLowerCase input.email) = 2 := by
      rw [hkey ((requestAccessPOST db rate input true newId).2.2) (by rw [k1]; decide)]
      omega
    have k3 : (requestAccessPOST db
        ((requestAccessPOST db
          ((requestAccessPOST db rate input true newId).2.2)
          input true newId).2.2)
        input true newId).2.2 (toLowerCase input.email) = 3 := by
      rw [hkey ((requestAccessPOST db
        ((requestAccessPOST db rate input true newId).2.2)
        input true newId).2.2) (by rw [k2]; decide)]
      omega
    have := hblocked ((requestAccessPOST db
        ((requestAccessPOST db
          ((requestAccessPOST db rate input true newId).2.2)
          input true newId).2.2)
        input true newId).2.2) (by rw [k3]; decide)
    rw [this]

/-- Witness for C9: a database holding a pending request for the email; the
fourth consecutive duplicate submission is rate-limited. -/
theorem rateLimit_consumed_before_checks_witness :
    (requestAccessPOST
        ⟨[⟨1, "a@x.com", "Ann", none, .pending, none, none, none⟩], [], []⟩
        ((requestAccessPOST
          ⟨[⟨1, "a@x.com", "Ann", none, .pending, none, none, none⟩], [], []⟩
          ((requestAccessPOST
            ⟨[⟨1, "a@x.com", "Ann", none, .pending, none, none, none⟩], [], []⟩
            ((requestAccessPOST
              ⟨[⟨1, "a@x.com", "Ann", none, .pending, none, none, none⟩], [], []⟩
              (fun _ => 0) ⟨"a@x.com", "Ann", none, some "tok"⟩ true 9).2.2)
            ⟨"a@x.com", "Ann", none, some "tok"⟩ true 9).2.2)
          ⟨"a@x.com", "Ann", none, some "tok"⟩ true 9).2.2)
        ⟨"a@x.com", "Ann", none, some "tok"⟩ true 9).1 = .rateLimited :=
  (rateLimit_consumed_before_checks
    ⟨[⟨1, "a@x.com", "Ann", none, .pending, none, none, none⟩], [], []⟩
    (fun _ => 0) ⟨"a@x.com", "Ann", none, some "tok"⟩ 9
    (by decide) (by decide) (by decide) (by decide) (by decide) (by decide)
    (by decide)).2.2 rfl

end DoxIn
